import Mathlib

/-!
# Claim Lifecycle Orchestrator — verification development

Shallow embedding of `ClaimService` (src/src/claim/claim.service.ts) of the
Stark-Insured backend.  The claim store is a list of claim records; the
external collaborators (Fraud Screener, Verdict Oracle, Notifier, user
lookup) are fields of a `Collaborators` record supplying the outcome of each
call; every service operation is a pure function from a store (and the
collaborator record) to a result, an updated store and a trace of observable
events.
-/

set_option maxHeartbeats 1000000

deriving instance DecidableEq for Except

/-- Claim status enum (`ClaimStatus` in src; values PENDING, APPROVED,
REJECTED, FLAGGED). -/
inductive ClaimStatus where
  | pending
  | approved
  | rejected
  | flagged
deriving DecidableEq, Repr

/-- Error taxonomy.  `notFound` and `forbidden` embed NestJS
`NotFoundException` / `ForbiddenException` thrown by the service;
`invalidState` embeds the spec's `InvalidState` error class (the service
never constructs it, but it must be expressible to settle claims about it);
`collaborator` stands for any failure raised by an external collaborator. -/
inductive Err where
  | notFound (message : String)
  | forbidden (message : String)
  | invalidState (message : String)
  | collaborator (message : String)
deriving DecidableEq, Repr

def Err.message : Err → String
  | .notFound m => m
  | .forbidden m => m
  | .invalidState m => m
  | .collaborator m => m

def Err.isInvalidState : Err → Bool
  | .invalidState _ => true
  | _ => false

/-- Metadata attached to a fraud-screening result
(`fraudResult.metadata` with fields `riskFactors`, `modelVersion`,
`timestamp`). -/
structure FraudMetadata where
  riskFactors : Option (List String)
  modelVersion : Option String
  timestamp : Option Nat
deriving DecidableEq, Repr

/-- The structured record stored in `claim.fraudDetectionData`
(claim.service.ts lines 317–323). -/
structure FraudDetectionData where
  reason : String
  riskFactors : Option (List String)
  modelVersion : Option String
  detectedAt : Nat
  metadata : Option FraudMetadata
deriving DecidableEq, Repr

/-- The structured record stored in `claim.oracleData`
(claim.service.ts line 247: `{ verifiedAt: new Date(), verdict }`). -/
structure OracleData where
  verifiedAt : Nat
  verdict : String
deriving DecidableEq, Repr

/-- Modelled from the spec: the `Claim` entity
(src/src/claim/entities/claim.entity.ts is not in the sources; fields and
creation defaults follow spec §3: `status = Pending`,
`fraudCheckCompleted = false`, `isFraudulent = false` at creation, fraud and
verdict records absent until the corresponding step writes them).  The
`user` field is the loaded owner relation used for notification context;
store-managed timestamps are omitted (spec §3 assigns them to the external
store). -/
structure Claim where
  id : Nat
  userId : String
  user : Option String
  description : String
  status : ClaimStatus
  fraudCheckCompleted : Bool
  isFraudulent : Bool
  fraudConfidenceScore : Option Nat
  fraudDetectionData : Option FraudDetectionData
  oracleData : Option OracleData
deriving DecidableEq, Repr

/-- Result of `FraudDetectionService.detectFraud`, per the collaborator
contract in spec §6. -/
structure FraudResult where
  isFraudulent : Bool
  confidenceScore : Nat
  reason : String
  metadata : Option FraudMetadata
deriving DecidableEq, Repr

/-- Result of the optional `getServiceStatus` collaborator call. -/
structure ServiceStatus where
  healthy : Bool
  message : Option String
deriving DecidableEq, Repr

/-- Modelled from the spec (§6 collaborator contracts): one record of
collaborator behaviour for a single operation invocation.  Each field gives
the outcome the corresponding external call would produce (`Except.error`
embeds a thrown exception).  `getServiceStatus := none` models a fraud
screener that does not implement the optional status method; `now` is the
wall-clock value `new Date()` reads. -/
structure Collaborators where
  detectFraud : Claim → Except Err FraudResult
  verifyClaim : Nat → String → Except Err String
  findUser : String → Except Err (Option String)
  sendSubmitted : Except Err Unit
  sendStatusChanged : Except Err Unit
  sendProcessed : Except Err Unit
  getServiceStatus : Option (Except Err ServiceStatus)
  now : Nat

/-- Observable side effects of an operation, in order of occurrence.
`notifyCall b` records an attempted notification and whether it succeeded
(`b = false` means the Notifier threw and the call site swallowed it). -/
inductive Event where
  | screenerCall
  | oracleCall
  | notifyCall (succeeded : Bool)
  | storeWrite
deriving DecidableEq, Repr

/-- Result of one service operation: the value returned or error thrown,
the state of the claim store afterwards, and the event trace. -/
structure OpResult (α : Type) where
  result : Except Err α
  store : List Claim
  events : List Event
deriving DecidableEq

def exceptOk {α : Type} : Except Err α → Bool
  | .ok _ => true
  | .error _ => false

/-- `claimRepository.findOne({ where: { id } })`. -/
def findClaim (store : List Claim) (id : Nat) : Option Claim :=
  store.find? (fun c => c.id == id)

/-- `claimRepository.save(claim)`: update in place when a record with the
same id exists, append otherwise. -/
def saveClaim (store : List Claim) (c : Claim) : List Claim :=
  if (store.find? (fun x => x.id == c.id)).isSome then
    store.map (fun x => if x.id == c.id then c else x)
  else
    store ++ [c]

/-- Fresh id assigned by the store at creation. -/
def nextId (store : List Claim) : Nat :=
  (store.map (fun c => c.id)).foldr max 0 + 1

/-- Modelled from the spec: `CreateClaimDto`
(src/src/claim/dto/create-claim.dto.ts is not in the sources; spec §3 names
the submitted content `description`). -/
structure CreateClaimDto where
  description : String
deriving DecidableEq, Repr

/-- `UpdateClaimDto`: optional status and description, merged by
`Object.assign` in `ClaimService.update`. -/
structure UpdateClaimDto where
  status : Option ClaimStatus
  description : Option String
deriving DecidableEq, Repr

namespace ClaimService

/-- `ClaimService.create` (claim.service.ts lines 33–65): build the claim
record, save it, then attempt the submission notification inside
`try { ... } catch { log }` — a notification or user-lookup failure is
swallowed.  (The background fraud-detection task scheduled on line 62 is a
separate later `runFraudDetection` invocation; see `Reachable`.) -/
def create (env : Collaborators) (store : List Claim)
    (dto : CreateClaimDto) (userId : String) : OpResult Claim :=
  let claim : Claim :=
    { id := nextId store
      userId := userId
      user := some userId
      description := dto.description
      status := .pending
      fraudCheckCompleted := false
      isFraudulent := false
      fraudConfidenceScore := none
      fraudDetectionData := none
      oracleData := none }
  let store1 := saveClaim store claim
  let notifyEvents : List Event :=
    match env.findUser userId with
    | .ok (some _) => [.notifyCall (exceptOk env.sendSubmitted)]
    | .ok none => []
    | .error _ => []
  ⟨.ok claim, store1, [.storeWrite] ++ notifyEvents⟩

/-- The claim record as updated by a successful fraud screening
(claim.service.ts lines 313–331): record the result fields and flag the
claim when the screener reports fraud. -/
def fraudSuccessUpdate (env : Collaborators) (claim : Claim)
    (fraudResult : FraudResult) : Claim :=
  { claim with
    fraudCheckCompleted := true
    isFraudulent := fraudResult.isFraudulent
    fraudConfidenceScore := some fraudResult.confidenceScore
    fraudDetectionData := some
      { reason := fraudResult.reason
        riskFactors := fraudResult.metadata.bind (fun m => m.riskFactors)
        modelVersion := fraudResult.metadata.bind (fun m => m.modelVersion)
        detectedAt := ((fraudResult.metadata.bind (fun m => m.timestamp)).getD env.now)
        metadata := fraudResult.metadata }
    status := if fraudResult.isFraudulent then .flagged else claim.status }

/-- `ClaimService.runFraudDetection` (claim.service.ts lines 296–352). -/
def runFraudDetection (env : Collaborators) (store : List Claim)
    (claimId : Nat) : OpResult Unit :=
  match findClaim store claimId with
  | none =>
      ⟨.error (.notFound ("Claim with ID " ++ toString claimId ++ " not found")),
        store, []⟩
  | some claim =>
      if claim.fraudCheckCompleted then
        ⟨.ok (), store, []⟩
      else
        match env.detectFraud claim with
        | .ok fraudResult =>
            ⟨.ok (), saveClaim store (fraudSuccessUpdate env claim fraudResult),
              [.screenerCall, .storeWrite]⟩
        | .error e =>
            let claim' : Claim := { claim with fraudCheckCompleted := true }
            ⟨.error e, saveClaim store claim', [.screenerCall, .storeWrite]⟩

/-- The inline verdict mapping of `ClaimService.processClaim`
(claim.service.ts lines 240–245). -/
def mapVerdict (verdict : String) : ClaimStatus :=
  if verdict == "approved" then .approved
  else if verdict == "rejected" then .rejected
  else .pending

/-- The claim record as updated by the verdict step
(claim.service.ts lines 239–247). -/
def verdictUpdate (env : Collaborators) (claim : Claim) (verdict : String) : Claim :=
  { claim with
    status := mapVerdict verdict
    oracleData := some { verifiedAt := env.now, verdict := verdict } }

/-- `ClaimService.processClaim` (claim.service.ts lines 202–291): guard on
existence and `Pending` status (both failures throw `NotFoundException`
with the same message), run fraud detection when not yet completed and
reload, stop early when fraudulent, otherwise consult the oracle, persist
the mapped verdict and attempt a best-effort notification. -/
def processClaim (env : Collaborators) (store : List Claim)
    (claimId : Nat) : OpResult Unit :=
  match findClaim store claimId with
  | none => ⟨.error (.notFound "Claim not found or already processed"), store, []⟩
  | some claim0 =>
      if claim0.status = .pending then
        let step1 : Except Err Claim × List Claim × List Event :=
          if claim0.fraudCheckCompleted then
            (.ok claim0, store, [])
          else
            let r := runFraudDetection env store claimId
            match r.result with
            | .error e => (.error e, r.store, r.events)
            | .ok _ =>
                match findClaim r.store claimId with
                | some updated => (.ok updated, r.store, r.events)
                | none => (.ok claim0, r.store, r.events)
        match step1 with
        | (.error e, s, evs) => ⟨.error e, s, evs⟩
        | (.ok claim, s, evs) =>
            if claim.isFraudulent then
              ⟨.ok (), s, evs⟩
            else
              match env.verifyClaim claim.id claim.description with
              | .error e => ⟨.error e, s, evs ++ [.oracleCall]⟩
              | .ok verdict =>
                  let claim' : Claim := verdictUpdate env claim verdict
                  let s2 := saveClaim s claim'
                  let evs2 := evs ++ [.oracleCall, .storeWrite]
                  let evs3 :=
                    if claim.user.isSome then
                      evs2 ++ [.notifyCall (exceptOk env.sendProcessed)]
                    else evs2
                  ⟨.ok (), s2, evs3⟩
      else
        ⟨.error (.notFound "Claim not found or already processed"), store, []⟩

/-- `ClaimService.update` (claim.service.ts lines 107–159): admin-only
merge of the dto into the claim, save, and — when the status actually
changed — a best-effort status-change notification whose failure is
swallowed. -/
def update (env : Collaborators) (store : List Claim) (id : Nat)
    (dto : UpdateClaimDto) (isAdmin : Bool) : OpResult Claim :=
  match findClaim store id with
  | none =>
      ⟨.error (.notFound ("Claim with ID " ++ toString id ++ " not found")), store, []⟩
  | some claim =>
      if isAdmin then
        let previousStatus := claim.status
        let claim' : Claim :=
          { claim with
            status := dto.status.getD claim.status
            description := dto.description.getD claim.description }
        let store' := saveClaim store claim'
        let evs : List Event :=
          match dto.status with
          | some st =>
              if previousStatus ≠ st then
                [.storeWrite, .notifyCall (exceptOk env.sendStatusChanged)]
              else [.storeWrite]
          | none => [.storeWrite]
        ⟨.ok claim', store', evs⟩
      else
        ⟨.error (.forbidden "Only administrators can update claims"), store, []⟩

/-- The record returned by `ClaimService.getClaimStats`
(claim.service.ts lines 176–200). -/
structure ClaimStats where
  total : Nat
  pending : Nat
  approved : Nat
  rejected : Nat
  flagged : Nat
  fraudulent : Nat
  fraudCheckCompleted : Nat
  fraudCheckPending : Nat
deriving DecidableEq, Repr

/-- `ClaimService.getClaimStats`: per-status counts, fraudulent count,
fraud-check-completed count, and `fraudCheckPending = total -
fraudCheckCompleted`. -/
def getClaimStats (store : List Claim) : ClaimStats :=
  let total := store.length
  let fraudCheckCompleted := store.countP (fun c => c.fraudCheckCompleted == true)
  { total := total
    pending := store.countP (fun c => c.status == .pending)
    approved := store.countP (fun c => c.status == .approved)
    rejected := store.countP (fun c => c.status == .rejected)
    flagged := store.countP (fun c => c.status == .flagged)
    fraudulent := store.countP (fun c => c.isFraudulent == true)
    fraudCheckCompleted := fraudCheckCompleted
    fraudCheckPending := total - fraudCheckCompleted }

/-- `ClaimService.getFraudDetectionStatus` (claim.service.ts lines
371–380): call the optional collaborator status method inside a
`try/catch`; absence of the method yields a default healthy status and a
thrown error yields an unhealthy status carrying the error message. -/
def getFraudDetectionStatus (env : Collaborators) : ServiceStatus :=
  match env.getServiceStatus with
  | some (.ok s) => s
  | some (.error e) => { healthy := false, message := some e.message }
  | none => { healthy := true, message := some "Service status check not implemented" }

end ClaimService

/-- Stores reachable from the empty store through the orchestrator's own
operations: `create`, `runFraudDetection` (also standing for the background
task scheduled by `create`) and `processClaim`, each step with arbitrary
collaborator behaviour. -/
inductive Reachable : List Claim → Prop where
  | empty : Reachable []
  | createStep (env : Collaborators) (dto : CreateClaimDto) (userId : String)
      {s : List Claim} : Reachable s →
      Reachable (ClaimService.create env s dto userId).store
  | fraudStep (env : Collaborators) (id : Nat) {s : List Claim} :
      Reachable s → Reachable (ClaimService.runFraudDetection env s id).store
  | processStep (env : Collaborators) (id : Nat) {s : List Claim} :
      Reachable s → Reachable (ClaimService.processClaim env s id).store

/-- The per-claim state invariant maintained by the orchestrator:
`Flagged` exactly when fraud was detected by a completed screening, no
fraud verdict before screening completes, and no oracle verdict before
screening completes. -/
def ClaimInv (c : Claim) : Prop :=
  (c.status = .flagged ↔ c.isFraudulent = true ∧ c.fraudCheckCompleted = true) ∧
  (c.fraudCheckCompleted = false → c.isFraudulent = false) ∧
  (c.oracleData.isSome = true → c.fraudCheckCompleted = true)

/-- All claims in the store satisfy the invariant. -/
def StoreInv (s : List Claim) : Prop := ∀ c ∈ s, ClaimInv c

/-! ### Store lemmas -/

theorem findClaim_some_id {s : List Claim} {i : Nat} {c : Claim}
    (h : findClaim s i = some c) : c.id = i := by
  have := List.find?_some h
  simpa using this

theorem findClaim_mem {s : List Claim} {i : Nat} {c : Claim}
    (h : findClaim s i = some c) : c ∈ s :=
  List.mem_of_find?_eq_some h

theorem mem_saveClaim {s : List Claim} {c x : Claim} (hx : x ∈ saveClaim s c) :
    x = c ∨ x ∈ s := by
  unfold saveClaim at hx
  cases hfind : s.find? (fun y => y.id == c.id) with
  | none =>
      rw [hfind] at hx
      simp only [Option.isSome_none, Bool.false_eq_true, if_false] at hx
      rcases List.mem_append.mp hx with h1 | h1
      · right; exact h1
      · left; simpa using h1
  | some y =>
      rw [hfind] at hx
      simp only [Option.isSome_some, if_true] at hx
      rcases List.mem_map.mp hx with ⟨z, hz, hzx⟩
      by_cases hzc : (z.id == c.id)
      · left; rw [← hzx, if_pos hzc]
      · right; rw [← hzx, if_neg hzc]; exact hz

theorem find?_append_single (c : Claim) (s : List Claim)
    (hs : s.find? (fun x => x.id == c.id) = none) :
    (s ++ [c]).find? (fun x => x.id == c.id) = some c := by
  induction s with
  | nil => simp
  | cons a t ih =>
      cases hpa : (a.id == c.id) with
      | true =>
          rw [List.find?_cons_of_pos _ (by simpa using hpa)] at hs
          exact Option.noConfusion hs
      | false =>
          rw [List.find?_cons_of_neg _ (by simp [hpa])] at hs
          rw [List.cons_append, List.find?_cons_of_neg _ (by simp [hpa])]
          exact ih hs

theorem find?_map_self (c : Claim) (s : List Claim) (y : Claim)
    (hs : s.find? (fun x => x.id == c.id) = some y) :
    (s.map (fun x => if x.id == c.id then c else x)).find?
      (fun x => x.id == c.id) = some c := by
  induction s with
  | nil => simp at hs
  | cons a t ih =>
      cases hpa : (a.id == c.id) with
      | true =>
          simp only [List.map_cons, if_pos hpa]
          rw [List.find?_cons_of_pos _ (by simp)]
      | false =>
          rw [List.find?_cons_of_neg _ (by simp [hpa])] at hs
          simp only [List.map_cons, if_neg (by simp [hpa] : ¬ (a.id == c.id) = true)]
          rw [List.find?_cons_of_neg _ (by simp [hpa])]
          exact ih hs

theorem findClaim_saveClaim_self (s : List Claim) (c : Claim) :
    findClaim (saveClaim s c) c.id = some c := by
  unfold findClaim saveClaim
  cases hfind : s.find? (fun x => x.id == c.id) with
  | none =>
      simp only [Option.isSome_none, Bool.false_eq_true, if_false]
      exact find?_append_single c s hfind
  | some y =>
      simp only [Option.isSome_some, if_true]
      exact find?_map_self c s y hfind

theorem findClaim_saveClaim {s : List Claim} {c : Claim} {i : Nat}
    (hci : c.id = i) : findClaim (saveClaim s c) i = some c :=
  hci ▸ findClaim_saveClaim_self s c

/-! ### Branch characterizations of `runFraudDetection` -/

theorem runFraudDetection_none {env : Collaborators} {s : List Claim} {id : Nat}
    (hf : findClaim s id = none) :
    ClaimService.runFraudDetection env s id
      = ⟨.error (.notFound ("Claim with ID " ++ toString id ++ " not found")), s, []⟩ := by
  unfold ClaimService.runFraudDetection
  rw [hf]

theorem runFraudDetection_done {env : Collaborators} {s : List Claim} {id : Nat}
    {c : Claim} (hf : findClaim s id = some c) (hcc : c.fraudCheckCompleted = true) :
    ClaimService.runFraudDetection env s id = ⟨.ok (), s, []⟩ := by
  unfold ClaimService.runFraudDetection
  rw [hf]
  simp [hcc]

theorem runFraudDetection_ok {env : Collaborators} {s : List Claim} {id : Nat}
    {c : Claim} {r : FraudResult} (hf : findClaim s id = some c)
    (hcc : c.fraudCheckCompleted = false) (hdf : env.detectFraud c = .ok r) :
    ClaimService.runFraudDetection env s id
      = ⟨.ok (), saveClaim s (ClaimService.fraudSuccessUpdate env c r),
          [.screenerCall, .storeWrite]⟩ := by
  unfold ClaimService.runFraudDetection
  rw [hf]
  simp [hcc, hdf]

theorem runFraudDetection_err {env : Collaborators} {s : List Claim} {id : Nat}
    {c : Claim} {e : Err} (hf : findClaim s id = some c)
    (hcc : c.fraudCheckCompleted = false) (hdf : env.detectFraud c = .error e) :
    ClaimService.runFraudDetection env s id
      = ⟨.error e, saveClaim s { c with fraudCheckCompleted := true },
          [.screenerCall, .storeWrite]⟩ := by
  unfold ClaimService.runFraudDetection
  rw [hf]
  simp [hcc, hdf]

/-! ### Branch characterizations of `processClaim` -/

theorem processClaim_notFound_none {env : Collaborators} {s : List Claim} {id : Nat}
    (hf : findClaim s id = none) :
    ClaimService.processClaim env s id
      = ⟨.error (.notFound "Claim not found or already processed"), s, []⟩ := by
  unfold ClaimService.processClaim
  rw [hf]

theorem processClaim_notFound_notPending {env : Collaborators} {s : List Claim}
    {id : Nat} {c : Claim} (hf : findClaim s id = some c)
    (hp : c.status ≠ .pending) :
    ClaimService.processClaim env s id
      = ⟨.error (.notFound "Claim not found or already processed"), s, []⟩ := by
  unfold ClaimService.processClaim
  rw [hf]
  simp [hp]

theorem processClaim_screenErr {env : Collaborators} {s : List Claim} {id : Nat}
    {c : Claim} {e : Err} (hf : findClaim s id = some c) (hp : c.status = .pending)
    (hcc : c.fraudCheckCompleted = false) (hdf : env.detectFraud c = .error e) :
    ClaimService.processClaim env s id
      = ⟨.error e, saveClaim s { c with fraudCheckCompleted := true },
          [.screenerCall, .storeWrite]⟩ := by
  unfold ClaimService.processClaim
  rw [hf]
  simp [hp, hcc, runFraudDetection_err hf hcc hdf]

theorem processClaim_fraudFound {env : Collaborators} {s : List Claim} {id : Nat}
    {c : Claim} {r : FraudResult} (hf : findClaim s id = some c)
    (hp : c.status = .pending) (hcc : c.fraudCheckCompleted = false)
    (hdf : env.detectFraud c = .ok r) (hfr : r.isFraudulent = true) :
    ClaimService.processClaim env s id
      = ⟨.ok (), saveClaim s (ClaimService.fraudSuccessUpdate env c r),
          [.screenerCall, .storeWrite]⟩ := by
  have hcid := findClaim_some_id hf
  have hid : (ClaimService.fraudSuccessUpdate env c r).id = id := hcid
  have hufr : (ClaimService.fraudSuccessUpdate env c r).isFraudulent = true := hfr
  unfold ClaimService.processClaim
  rw [hf]
  simp [hp, hcc, runFraudDetection_ok hf hcc hdf, findClaim_saveClaim hid, hufr]

theorem processClaim_screenClean_oracleErr {env : Collaborators} {s : List Claim}
    {id : Nat} {c : Claim} {r : FraudResult} {e : Err}
    (hf : findClaim s id = some c) (hp : c.status = .pending)
    (hcc : c.fraudCheckCompleted = false) (hdf : env.detectFraud c = .ok r)
    (hfr : r.isFraudulent = false)
    (hv : env.verifyClaim c.id c.description = .error e) :
    ClaimService.processClaim env s id
      = ⟨.error e, saveClaim s (ClaimService.fraudSuccessUpdate env c r),
          [.screenerCall, .storeWrite, .oracleCall]⟩ := by
  have hcid := findClaim_some_id hf
  have hid : (ClaimService.fraudSuccessUpdate env c r).id = id := hcid
  have hufr : (ClaimService.fraudSuccessUpdate env c r).isFraudulent = false := hfr
  have hv' : env.verifyClaim (ClaimService.fraudSuccessUpdate env c r).id
      (ClaimService.fraudSuccessUpdate env c r).description = .error e := hv
  unfold ClaimService.processClaim
  rw [hf]
  simp [hp, hcc, runFraudDetection_ok hf hcc hdf, findClaim_saveClaim hid, hufr, hv']

theorem processClaim_screenClean_oracleOk {env : Collaborators} {s : List Claim}
    {id : Nat} {c : Claim} {r : FraudResult} {v : String}
    (hf : findClaim s id = some c) (hp : c.status = .pending)
    (hcc : c.fraudCheckCompleted = false) (hdf : env.detectFraud c = .ok r)
    (hfr : r.isFraudulent = false)
    (hv : env.verifyClaim c.id c.description = .ok v) :
    ClaimService.processClaim env s id
      = ⟨.ok (),
          saveClaim (saveClaim s (ClaimService.fraudSuccessUpdate env c r))
            (ClaimService.verdictUpdate env (ClaimService.fraudSuccessUpdate env c r) v),
          [.screenerCall, .storeWrite, .oracleCall, .storeWrite]
            ++ (if c.user.isSome then [.notifyCall (exceptOk env.sendProcessed)] else [])⟩ := by
  have hcid := findClaim_some_id hf
  have hid : (ClaimService.fraudSuccessUpdate env c r).id = id := hcid
  have hufr : (ClaimService.fraudSuccessUpdate env c r).isFraudulent = false := hfr
  have huser : (ClaimService.fraudSuccessUpdate env c r).user = c.user := rfl
  have hv' : env.verifyClaim (ClaimService.fraudSuccessUpdate env c r).id
      (ClaimService.fraudSuccessUpdate env c r).description = .ok v := hv
  unfold ClaimService.processClaim
  rw [hf]
  simp [hp, hcc, runFraudDetection_ok hf hcc hdf, findClaim_saveClaim hid, hufr,
    huser, hv']
  by_cases hu : c.user.isSome = true <;> simp [hu]

theorem processClaim_done_fraudulent {env : Collaborators} {s : List Claim}
    {id : Nat} {c : Claim} (hf : findClaim s id = some c)
    (hp : c.status = .pending) (hcc : c.fraudCheckCompleted = true)
    (hif : c.isFraudulent = true) :
    ClaimService.processClaim env s id = ⟨.ok (), s, []⟩ := by
  unfold ClaimService.processClaim
  rw [hf]
  simp [hp, hcc, hif]

theorem processClaim_done_oracleErr {env : Collaborators} {s : List Claim}
    {id : Nat} {c : Claim} {e : Err} (hf : findClaim s id = some c)
    (hp : c.status = .pending) (hcc : c.fraudCheckCompleted = true)
    (hif : c.isFraudulent = false)
    (hv : env.verifyClaim c.id c.description = .error e) :
    ClaimService.processClaim env s id = ⟨.error e, s, [.oracleCall]⟩ := by
  unfold ClaimService.processClaim
  rw [hf]
  simp [hp, hcc, hif, hv]

theorem processClaim_done_oracleOk {env : Collaborators} {s : List Claim}
    {id : Nat} {c : Claim} {v : String} (hf : findClaim s id = some c)
    (hp : c.status = .pending) (hcc : c.fraudCheckCompleted = true)
    (hif : c.isFraudulent = false)
    (hv : env.verifyClaim c.id c.description = .ok v) :
    ClaimService.processClaim env s id
      = ⟨.ok (), saveClaim s (ClaimService.verdictUpdate env c v),
          [.oracleCall, .storeWrite]
            ++ (if c.user.isSome then [.notifyCall (exceptOk env.sendProcessed)] else [])⟩ := by
  unfold ClaimService.processClaim
  rw [hf]
  simp [hp, hcc, hif, hv]
  by_cases hu : c.user.isSome = true <;> simp [hu]

/-! ### Invariant preservation -/

theorem storeInv_save {s : List Claim} {c : Claim} (hs : StoreInv s)
    (hc : ClaimInv c) : StoreInv (saveClaim s c) := by
  intro x hx
  rcases mem_saveClaim hx with h | h
  · rw [h]; exact hc
  · exact hs x h

theorem claimInv_not_flagged {c : Claim} (hinv : ClaimInv c)
    (hcc : c.fraudCheckCompleted = false) : c.status ≠ .flagged := by
  intro h
  have h2 := (hinv.1.mp h).2
  rw [hcc] at h2
  exact Bool.noConfusion h2

theorem claimInv_newClaim (i : Nat) (u : String) (uo : Option String)
    (d : String) :
    ClaimInv { id := i, userId := u, user := uo, description := d,
               status := .pending, fraudCheckCompleted := false,
               isFraudulent := false, fraudConfidenceScore := none,
               fraudDetectionData := none, oracleData := none } := by
  unfold ClaimInv
  simp

theorem claimInv_fraudSuccessUpdate {env : Collaborators} {c : Claim}
    {r : FraudResult} (hinv : ClaimInv c)
    (hcc : c.fraudCheckCompleted = false) :
    ClaimInv (ClaimService.fraudSuccessUpdate env c r) := by
  have hnf := claimInv_not_flagged hinv hcc
  unfold ClaimInv ClaimService.fraudSuccessUpdate
  cases hr : r.isFraudulent with
  | true => simp [hr]
  | false => simp [hr, hnf]

theorem claimInv_fraudFail {c : Claim} (hinv : ClaimInv c)
    (hcc : c.fraudCheckCompleted = false) :
    ClaimInv { c with fraudCheckCompleted := true } := by
  have hif : c.isFraudulent = false := hinv.2.1 hcc
  have hnf := claimInv_not_flagged hinv hcc
  unfold ClaimInv
  simp [hif, hnf]

theorem mapVerdict_ne_flagged (v : String) :
    ClaimService.mapVerdict v ≠ .flagged := by
  unfold ClaimService.mapVerdict
  by_cases h1 : (v == "approved")
  · simp [h1]
  · by_cases h2 : (v == "rejected") <;> simp [h1, h2]

theorem claimInv_verdictUpdate {env : Collaborators} {c : Claim} {v : String}
    (hif : c.isFraudulent = false) (hcc : c.fraudCheckCompleted = true) :
    ClaimInv (ClaimService.verdictUpdate env c v) := by
  unfold ClaimInv ClaimService.verdictUpdate
  simp [mapVerdict_ne_flagged, hif, hcc]

theorem storeInv_create (env : Collaborators) (s : List Claim)
    (dto : CreateClaimDto) (userId : String) (hs : StoreInv s) :
    StoreInv (ClaimService.create env s dto userId).store :=
  storeInv_save hs (claimInv_newClaim _ _ _ _)

theorem storeInv_runFraudDetection (env : Collaborators) (s : List Claim)
    (id : Nat) (hs : StoreInv s) :
    StoreInv (ClaimService.runFraudDetection env s id).store := by
  cases hf : findClaim s id with
  | none => rw [runFraudDetection_none hf]; exact hs
  | some c =>
      have hcInv := hs c (findClaim_mem hf)
      cases hcc : c.fraudCheckCompleted with
      | true => rw [runFraudDetection_done hf hcc]; exact hs
      | false =>
          cases hdf : env.detectFraud c with
          | ok r =>
              rw [runFraudDetection_ok hf hcc hdf]
              exact storeInv_save hs (claimInv_fraudSuccessUpdate hcInv hcc)
          | error e =>
              rw [runFraudDetection_err hf hcc hdf]
              exact storeInv_save hs (claimInv_fraudFail hcInv hcc)

theorem storeInv_processClaim (env : Collaborators) (s : List Claim)
    (id : Nat) (hs : StoreInv s) :
    StoreInv (ClaimService.processClaim env s id).store := by
  cases hf : findClaim s id with
  | none => rw [processClaim_notFound_none hf]; exact hs
  | some c =>
      by_cases hp : c.status = .pending
      · have hcInv := hs c (findClaim_mem hf)
        cases hcc : c.fraudCheckCompleted with
        | true =>
            cases hif : c.isFraudulent with
            | true => rw [processClaim_done_fraudulent hf hp hcc hif]; exact hs
            | false =>
                cases hv : env.verifyClaim c.id c.description with
                | error e => rw [processClaim_done_oracleErr hf hp hcc hif hv]; exact hs
                | ok v =>
                    rw [processClaim_done_oracleOk hf hp hcc hif hv]
                    exact storeInv_save hs (claimInv_verdictUpdate hif hcc)
        | false =>
            cases hdf : env.detectFraud c with
            | error e =>
                rw [processClaim_screenErr hf hp hcc hdf]
                exact storeInv_save hs (claimInv_fraudFail hcInv hcc)
            | ok r =>
                cases hfr : r.isFraudulent with
                | true =>
                    rw [processClaim_fraudFound hf hp hcc hdf hfr]
                    exact storeInv_save hs (claimInv_fraudSuccessUpdate hcInv hcc)
                | false =>
                    cases hv : env.verifyClaim c.id c.description with
                    | error e =>
                        rw [processClaim_screenClean_oracleErr hf hp hcc hdf hfr hv]
                        exact storeInv_save hs (claimInv_fraudSuccessUpdate hcInv hcc)
                    | ok v =>
                        rw [processClaim_screenClean_oracleOk hf hp hcc hdf hfr hv]
                        have h1 : ClaimInv (ClaimService.fraudSuccessUpdate env c r) :=
                          claimInv_fraudSuccessUpdate hcInv hcc
                        have h2 : (ClaimService.fraudSuccessUpdate env c r).isFraudulent = false := hfr
                        have h3 : (ClaimService.fraudSuccessUpdate env c r).fraudCheckCompleted = true := rfl
                        exact storeInv_save (storeInv_save hs h1) (claimInv_verdictUpdate h2 h3)
      · rw [processClaim_notFound_notPending hf hp]; exact hs

theorem storeInv_reachable {s : List Claim} (hr : Reachable s) : StoreInv s := by
  induction hr with
  | empty => intro c hc; exact absurd hc (List.not_mem_nil c)
  | createStep env dto userId hr ih => exact storeInv_create env _ dto userId ih
  | fraudStep env id hr ih => exact storeInv_runFraudDetection env _ id ih
  | processStep env id hr ih => exact storeInv_processClaim env _ id ih

/-! ### Concrete collaborator behaviours and stores used by witnesses -/

/-- Benign screener, "approved" oracle, successful notifier, user found. -/
def envW : Collaborators :=
  { detectFraud := fun _ =>
      .ok { isFraudulent := false, confidenceScore := 10, reason := "low risk",
            metadata := none }
    verifyClaim := fun _ _ => .ok "approved"
    findUser := fun u => .ok (some u)
    sendSubmitted := .ok ()
    sendStatusChanged := .ok ()
    sendProcessed := .ok ()
    getServiceStatus := none
    now := 42 }

/-- A screening result reporting fraud. -/
def fraudResultW : FraudResult :=
  { isFraudulent := true, confidenceScore := 95, reason := "high risk",
    metadata := none }

/-- A screener that reports fraud. -/
def envFraudW : Collaborators :=
  { envW with detectFraud := fun _ => .ok fraudResultW }

/-- A screener that throws. -/
def envScreenFailW : Collaborators :=
  { envW with detectFraud := fun _ => .error (.collaborator "screener down") }

/-- An oracle that throws. -/
def envOracleFailW : Collaborators :=
  { envW with verifyClaim := fun _ _ => .error (.collaborator "oracle down") }

/-- A notifier that throws on every channel. -/
def envNotifyFailW : Collaborators :=
  { envW with
    sendSubmitted := .error (.collaborator "notifier down")
    sendStatusChanged := .error (.collaborator "notifier down")
    sendProcessed := .error (.collaborator "notifier down") }

/-- Failing notifier and a "rejected" oracle. -/
def envNotifyFailRejW : Collaborators :=
  { envNotifyFailW with verifyClaim := fun _ _ => .ok "rejected" }

/-- An oracle answering the unrecognized verdict "maybe". -/
def envMaybeW : Collaborators :=
  { envW with verifyClaim := fun _ _ => .ok "maybe" }

/-- A fraud-detection collaborator whose status method throws. -/
def envStatusErrW : Collaborators :=
  { envW with getServiceStatus := some (.error (.collaborator "health check failed")) }

/-- The claim record created first from the empty store. -/
def claimW0 : Claim :=
  { id := 1, userId := "u1", user := some "u1", description := "water damage",
    status := .pending, fraudCheckCompleted := false, isFraudulent := false,
    fraudConfidenceScore := none, fraudDetectionData := none, oracleData := none }

/-- The store obtained by creating one claim from the empty store. -/
def storeW0 : List Claim := (ClaimService.create envW [] ⟨"water damage"⟩ "u1").store

/-- `storeW0` after a successful benign fraud screening. -/
def storeScreenedW : List Claim :=
  (ClaimService.runFraudDetection envW storeW0 1).store

/-- The screened claim record held by `storeScreenedW`. -/
def claimScreenedW : Claim :=
  { claimW0 with
    fraudCheckCompleted := true
    fraudConfidenceScore := some 10
    fraudDetectionData := some
      { reason := "low risk", riskFactors := none, modelVersion := none,
        detectedAt := 42, metadata := none } }

/-- A store holding one claim that is no longer `Pending`. -/
def storeNonPendingW : List Claim :=
  [{ claimW0 with status := .approved, fraudCheckCompleted := true }]

/-- `Except` result classifier for the spec's `InvalidState` error class. -/
def failsWithInvalidState {α : Type} : Except Err α → Bool
  | .error e => e.isInvalidState
  | .ok _ => false

/-! ### Claims -/

/-- C1: for every claim record reachable through the orchestrator's own
operations (`create`, `runFraudDetection`, `processClaim`), `status =
Flagged` holds if and only if `isFraudulent = true` and
`fraudCheckCompleted = true`; since the equivalence holds after every
operation, no operation other than fraud screening ever sets `Flagged`. -/
theorem C1_flagged_iff_fraud {s : List Claim} (hr : Reachable s) {c : Claim}
    (hc : c ∈ s) :
    c.status = .flagged ↔ (c.isFraudulent = true ∧ c.fraudCheckCompleted = true) :=
  (storeInv_reachable hr c hc).1

/-- Witness for C1: the invariant instantiated at a concrete reachable
store. -/
theorem C1_flagged_iff_fraud_witness :
    claimW0.status = .flagged
      ↔ (claimW0.isFraudulent = true ∧ claimW0.fraudCheckCompleted = true) :=
  C1_flagged_iff_fraud
    (Reachable.createStep envW ⟨"water damage"⟩ "u1" Reachable.empty)
    (by decide)

/-- C9: `getClaimStats` returns the per-status counts, the fraudulent
count, the fraud-check-completed count, and `fraudCheckPending` exactly
equal to the total count minus the completed count (which in turn equals
the number of claims whose fraud check is still open). -/
theorem C9_stats_correct (s : List Claim) :
    (ClaimService.getClaimStats s).total = s.length ∧
    (ClaimService.getClaimStats s).pending
      = s.countP (fun c => c.status == .pending) ∧
    (ClaimService.getClaimStats s).approved
      = s.countP (fun c => c.status == .approved) ∧
    (ClaimService.getClaimStats s).rejected
      = s.countP (fun c => c.status == .rejected) ∧
    (ClaimService.getClaimStats s).flagged
      = s.countP (fun c => c.status == .flagged) ∧
    (ClaimService.getClaimStats s).fraudulent
      = s.countP (fun c => c.isFraudulent == true) ∧
    (ClaimService.getClaimStats s).fraudCheckCompleted
      = s.countP (fun c => c.fraudCheckCompleted == true) ∧
    (ClaimService.getClaimStats s).fraudCheckPending
      = (ClaimService.getClaimStats s).total
          - (ClaimService.getClaimStats s).fraudCheckCompleted ∧
    (ClaimService.getClaimStats s).fraudCheckPending
      = s.countP (fun c => c.fraudCheckCompleted == false) := by
  refine ⟨rfl, rfl, rfl, rfl, rfl, rfl, rfl, rfl, ?_⟩
  show s.length - s.countP (fun c => c.fraudCheckCompleted == true)
      = s.countP (fun c => c.fraudCheckCompleted == false)
  simp only [beq_true, beq_false]
  induction s with
  | nil => rfl
  | cons a t ih =>
      have hle : t.countP (fun c => c.fraudCheckCompleted) ≤ t.length :=
        List.countP_le_length _
      cases ha : a.fraudCheckCompleted <;> simp [List.countP_cons, ha] <;> omega

/-- C10: `getFraudDetectionStatus` is total — it returns the default
healthy status when the collaborator lacks a status method, the
collaborator's own status when the call succeeds, and an unhealthy status
carrying the error message (rather than propagating the error) when the
call throws.  Totality is enforced by the return type: the embedding of
the method returns a `ServiceStatus`, never an error. -/
theorem C10_status_total (env : Collaborators) :
    (env.getServiceStatus = none →
      ClaimService.getFraudDetectionStatus env
        = { healthy := true, message := some "Service status check not implemented" }) ∧
    (∀ st, env.getServiceStatus = some (.ok st) →
      ClaimService.getFraudDetectionStatus env = st) ∧
    (∀ e, env.getServiceStatus = some (.error e) →
      ClaimService.getFraudDetectionStatus env
        = { healthy := false, message := some e.message }) := by
  refine ⟨?_, ?_, ?_⟩
  · intro h
    unfold ClaimService.getFraudDetectionStatus
    rw [h]
  · intro st h
    unfold ClaimService.getFraudDetectionStatus
    rw [h]
  · intro e h
    unfold ClaimService.getFraudDetectionStatus
    rw [h]

/-- Witness for C10: a collaborator without a status method and one whose
status method throws. -/
theorem C10_status_total_witness :
    ClaimService.getFraudDetectionStatus envW
      = { healthy := true, message := some "Service status check not implemented" } ∧
    ClaimService.getFraudDetectionStatus envStatusErrW
      = { healthy := false, message := some "health check failed" } :=
  ⟨(C10_status_total envW).1 rfl,
   (C10_status_total envStatusErrW).2.2 (Err.collaborator "health check failed") rfl⟩

/-- C3: when the Fraud Screener call inside `runFraudDetection` fails on a
claim whose fraud check has not yet completed, the operation persists
`fraudCheckCompleted = true` with every other field (in particular
`isFraudulent` and `status`) unchanged, and re-raises the screener's
failure. -/
theorem C3_screener_failure (env : Collaborators) (s : List Claim) (id : Nat)
    (c : Claim) (e : Err) (hf : findClaim s id = some c)
    (hcc : c.fraudCheckCompleted = false) (hdf : env.detectFraud c = .error e) :
    (ClaimService.runFraudDetection env s id).result = .error e ∧
    findClaim (ClaimService.runFraudDetection env s id).store id
      = some { c with fraudCheckCompleted := true } := by
  have hcid := findClaim_some_id hf
  rw [runFraudDetection_err hf hcc hdf]
  exact ⟨rfl, findClaim_saveClaim hcid⟩

/-- Witness for C3: the screener fails on the freshly created claim. -/
theorem C3_screener_failure_witness :
    (ClaimService.runFraudDetection envScreenFailW storeW0 1).result
      = .error (.collaborator "screener down") ∧
    findClaim (ClaimService.runFraudDetection envScreenFailW storeW0 1).store 1
      = some { claimW0 with fraudCheckCompleted := true } :=
  C3_screener_failure envScreenFailW storeW0 1 claimW0
    (.collaborator "screener down") (by decide) (by decide) (by decide)

/-- C2 counterexample: on an existing claim whose status is `Approved`
(not `Pending`), `processClaim` throws `NotFound` with the message
"Claim not found or already processed" — not the `InvalidState` error the
claim asserts for the existing-but-not-Pending case. -/
theorem C2_counterexample :
    (ClaimService.processClaim envW storeNonPendingW 1).result
      = .error (.notFound "Claim not found or already processed") ∧
    failsWithInvalidState (ClaimService.processClaim envW storeNonPendingW 1).result
      = false := by
  decide

/-- C2 (amended): for every claim whose status is not `Pending` and for
every non-existent claim id, `processClaim` fails with the same `NotFound`
error ("Claim not found or already processed") — the code does not
distinguish an `InvalidState` case — and leaves the stored claim record
entirely unchanged, performing no write. -/
theorem C2_guard_notFound_unchanged (env : Collaborators) (s : List Claim)
    (id : Nat) (h : ∀ c, findClaim s id = some c → c.status ≠ .pending) :
    (ClaimService.processClaim env s id).result
      = .error (.notFound "Claim not found or already processed") ∧
    (ClaimService.processClaim env s id).store = s ∧
    (ClaimService.processClaim env s id).events = [] := by
  cases hf : findClaim s id with
  | none => rw [processClaim_notFound_none hf]; exact ⟨rfl, rfl, rfl⟩
  | some c => rw [processClaim_notFound_notPending hf (h c hf)]; exact ⟨rfl, rfl, rfl⟩

/-- Witness for C2 (amended): the concrete non-`Pending` store. -/
theorem C2_guard_notFound_unchanged_witness :
    (ClaimService.processClaim envW storeNonPendingW 1).result
      = .error (.notFound "Claim not found or already processed") ∧
    (ClaimService.processClaim envW storeNonPendingW 1).store = storeNonPendingW ∧
    (ClaimService.processClaim envW storeNonPendingW 1).events = [] :=
  C2_guard_notFound_unchanged envW storeNonPendingW 1 (by
    intro c hc
    have hA : findClaim storeNonPendingW 1
        = some { claimW0 with status := .approved, fraudCheckCompleted := true } := by
      decide
    rw [hA] at hc
    injection hc with h
    rw [← h]
    decide)

/-- C4: on a reachable store, a `Pending` claim for which fraud screening
determines (when still to run) or has determined (when already completed)
`isFraudulent = true` makes `processClaim` skip the Verdict Oracle
entirely: no `oracleCall` event occurs, the claim ends the call `Flagged`,
and no verdict data is recorded. -/
theorem C4_fraud_skips_oracle {env : Collaborators} {s : List Claim}
    {id : Nat} {c : Claim} (hr : Reachable s) (hf : findClaim s id = some c)
    (hp : c.status = .pending)
    (hscr : (c.fraudCheckCompleted = true ∧ c.isFraudulent = true) ∨
            (c.fraudCheckCompleted = false ∧
              ∃ r, env.detectFraud c = .ok r ∧ r.isFraudulent = true)) :
    Event.oracleCall ∉ (ClaimService.processClaim env s id).events ∧
    ∃ c', findClaim (ClaimService.processClaim env s id).store id = some c' ∧
      c'.status = .flagged ∧ c'.oracleData = none := by
  have hinv := storeInv_reachable hr c (findClaim_mem hf)
  rcases hscr with ⟨hcc, hif⟩ | ⟨hcc, r, hdf, hfr⟩
  · exfalso
    have hfl : c.status = .flagged := hinv.1.mpr ⟨hif, hcc⟩
    rw [hp] at hfl
    exact ClaimStatus.noConfusion hfl
  · have hod : c.oracleData = none := by
      cases ho : c.oracleData with
      | none => rfl
      | some d =>
          exfalso
          have h2 := hinv.2.2 (by rw [ho]; rfl)
          rw [hcc] at h2
          exact Bool.noConfusion h2
    have hcid := findClaim_some_id hf
    rw [processClaim_fraudFound hf hp hcc hdf hfr]
    refine ⟨?_, ClaimService.fraudSuccessUpdate env c r, findClaim_saveClaim hcid, ?_, ?_⟩
    · show Event.oracleCall ∉ [Event.screenerCall, Event.storeWrite]
      decide
    · show (if r.isFraudulent then ClaimStatus.flagged else c.status) = .flagged
      rw [hfr]
      simp
    · show c.oracleData = none
      exact hod

/-- Witness for C4: a fraudulent screening on the freshly created claim. -/
theorem C4_fraud_skips_oracle_witness :
    Event.oracleCall ∉ (ClaimService.processClaim envFraudW storeW0 1).events ∧
    ∃ c', findClaim (ClaimService.processClaim envFraudW storeW0 1).store 1 = some c' ∧
      c'.status = .flagged ∧ c'.oracleData = none :=
  C4_fraud_skips_oracle
    (Reachable.createStep envW ⟨"water damage"⟩ "u1" Reachable.empty)
    (show findClaim storeW0 1 = some claimW0 by decide)
    (show claimW0.status = .pending by decide)
    (Or.inr ⟨show claimW0.fraudCheckCompleted = false by decide,
      fraudResultW,
      show envFraudW.detectFraud claimW0 = .ok fraudResultW by decide,
      show fraudResultW.isFraudulent = true by decide⟩)

theorem mapVerdict_eq (v : String) :
    ClaimService.mapVerdict v
      = (if v = "approved" then ClaimStatus.approved
         else if v = "rejected" then ClaimStatus.rejected
         else ClaimStatus.pending) := by
  unfold ClaimService.mapVerdict
  by_cases h1 : v = "approved" <;> by_cases h2 : v = "rejected" <;> simp [h1, h2]

/-- C5: on a `Pending` claim whose fraud screening reports (or already
reported) `isFraudulent = false`, `processClaim` maps the oracle's string
verdict exactly: "approved" yields `Approved`, "rejected" yields
`Rejected`, any other string leaves the status `Pending`; in every case
the raw verdict string and the timestamp are recorded in the persisted
claim's verdict data. -/
theorem C5_verdict_mapping (env : Collaborators) (s : List Claim) (id : Nat)
    (c : Claim) (v : String) (hf : findClaim s id = some c)
    (hp : c.status = .pending)
    (hscr : (c.fraudCheckCompleted = true ∧ c.isFraudulent = false) ∨
            (c.fraudCheckCompleted = false ∧
              ∃ r, env.detectFraud c = .ok r ∧ r.isFraudulent = false))
    (hv : env.verifyClaim c.id c.description = .ok v) :
    (ClaimService.processClaim env s id).result = .ok () ∧
    ∃ c', findClaim (ClaimService.processClaim env s id).store id = some c' ∧
      c'.status = (if v = "approved" then ClaimStatus.approved
                   else if v = "rejected" then ClaimStatus.rejected
                   else ClaimStatus.pending) ∧
      c'.oracleData = some { verifiedAt := env.now, verdict := v } := by
  have hcid := findClaim_some_id hf
  rcases hscr with ⟨hcc, hif⟩ | ⟨hcc, r, hdf, hfr⟩
  · rw [processClaim_done_oracleOk hf hp hcc hif hv]
    refine ⟨rfl, ClaimService.verdictUpdate env c v, findClaim_saveClaim hcid, ?_, rfl⟩
    show ClaimService.mapVerdict v = _
    exact mapVerdict_eq v
  · rw [processClaim_screenClean_oracleOk hf hp hcc hdf hfr hv]
    refine ⟨rfl,
      ClaimService.verdictUpdate env (ClaimService.fraudSuccessUpdate env c r) v,
      findClaim_saveClaim hcid, ?_, rfl⟩
    show ClaimService.mapVerdict v = _
    exact mapVerdict_eq v

/-- Witness for C5: the unrecognized verdict "maybe" leaves the freshly
screened claim `Pending` while recording the raw string. -/
theorem C5_verdict_mapping_witness :
    (ClaimService.processClaim envMaybeW storeW0 1).result = .ok () ∧
    ∃ c', findClaim (ClaimService.processClaim envMaybeW storeW0 1).store 1 = some c' ∧
      c'.status = (if "maybe" = "approved" then ClaimStatus.approved
                   else if "maybe" = "rejected" then ClaimStatus.rejected
                   else ClaimStatus.pending) ∧
      c'.oracleData = some { verifiedAt := 42, verdict := "maybe" } :=
  C5_verdict_mapping envMaybeW storeW0 1 claimW0 "maybe" (by decide) (by decide)
    (Or.inr ⟨by decide,
      { isFraudulent := false, confidenceScore := 10, reason := "low risk",
        metadata := none },
      by decide, by decide⟩)
    (by decide)

/-- C6 counterexample: on a `Pending` claim whose fraud check had not yet
completed, an oracle failure inside `processClaim` does NOT leave the
stored record unchanged — the fraud-screening fields persisted in step 1
remain. -/
theorem C6_counterexample :
    (ClaimService.processClaim envOracleFailW storeW0 1).result
      = .error (.collaborator "oracle down") ∧
    (ClaimService.processClaim envOracleFailW storeW0 1).store ≠ storeW0 := by
  decide

/-- C6 (amended): when the Verdict Oracle call inside `processClaim`
fails, the failure propagates to the caller, the claim's status remains
`Pending` and its verdict data is unchanged (no verdict recorded); the
stored record as a whole is unchanged exactly when fraud screening had
already completed before the call — otherwise the idempotency-preserving
fraud-screening fields written in step 1 remain persisted. -/
theorem C6_oracle_failure (env : Collaborators) (s : List Claim) (id : Nat)
    (c : Claim) (e : Err) (hf : findClaim s id = some c)
    (hp : c.status = .pending)
    (hscr : (c.fraudCheckCompleted = true ∧ c.isFraudulent = false) ∨
            (c.fraudCheckCompleted = false ∧
              ∃ r, env.detectFraud c = .ok r ∧ r.isFraudulent = false))
    (hv : env.verifyClaim c.id c.description = .error e) :
    (ClaimService.processClaim env s id).result = .error e ∧
    (∃ c', findClaim (ClaimService.processClaim env s id).store id = some c' ∧
       c'.status = .pending ∧ c'.oracleData = c.oracleData) ∧
    (c.fraudCheckCompleted = true →
      (ClaimService.processClaim env s id).store = s) := by
  have hcid := findClaim_some_id hf
  rcases hscr with ⟨hcc, hif⟩ | ⟨hcc, r, hdf, hfr⟩
  · rw [processClaim_done_oracleErr hf hp hcc hif hv]
    exact ⟨rfl, ⟨c, hf, hp, rfl⟩, fun _ => rfl⟩
  · rw [processClaim_screenClean_oracleErr hf hp hcc hdf hfr hv]
    refine ⟨rfl,
      ⟨ClaimService.fraudSuccessUpdate env c r, findClaim_saveClaim hcid, ?_, rfl⟩, ?_⟩
    · show (if r.isFraudulent then ClaimStatus.flagged else c.status) = .pending
      simp [hfr, hp]
    · intro h
      rw [hcc] at h
      exact Bool.noConfusion h

/-- Witness for C6: oracle failure on an already-screened `Pending` claim
leaves the store entirely unchanged. -/
theorem C6_oracle_failure_witness :
    (ClaimService.processClaim envOracleFailW storeScreenedW 1).result
      = .error (.collaborator "oracle down") ∧
    (∃ c', findClaim (ClaimService.processClaim envOracleFailW storeScreenedW 1).store 1
        = some c' ∧
       c'.status = .pending ∧ c'.oracleData = claimScreenedW.oracleData) ∧
    (claimScreenedW.fraudCheckCompleted = true →
      (ClaimService.processClaim envOracleFailW storeScreenedW 1).store
        = storeScreenedW) :=
  C6_oracle_failure envOracleFailW storeScreenedW 1 claimScreenedW
    (.collaborator "oracle down") (by decide) (by decide)
    (Or.inl ⟨by decide, by decide⟩) (by decide)

/-- C7: `runFraudDetection` is idempotent per claim — on a non-existent id
it fails with `NotFound`; once `fraudCheckCompleted` is true it is a no-op
(no store write, no event, no error); and after a first run with a
succeeding screener, that first run performs exactly one store write while
a second run (under any collaborator behaviour) performs none, so two
sequential invocations update `fraudDetectionData` exactly once. -/
theorem C7_screening_idempotent (env env2 : Collaborators) (s : List Claim)
    (id : Nat) :
    (findClaim s id = none →
      (ClaimService.runFraudDetection env s id).result
        = .error (.notFound ("Claim with ID " ++ toString id ++ " not found"))) ∧
    (∀ c, findClaim s id = some c → c.fraudCheckCompleted = true →
      ClaimService.runFraudDetection env s id = ⟨.ok (), s, []⟩) ∧
    (∀ c r, findClaim s id = some c → c.fraudCheckCompleted = false →
      env.detectFraud c = .ok r →
      (ClaimService.runFraudDetection env s id).events.count .storeWrite = 1 ∧
      ClaimService.runFraudDetection env2
          (ClaimService.runFraudDetection env s id).store id
        = ⟨.ok (), (ClaimService.runFraudDetection env s id).store, []⟩) := by
  refine ⟨?_, ?_, ?_⟩
  · intro hf
    rw [runFraudDetection_none hf]
  · intro c hf hcc
    exact runFraudDetection_done hf hcc
  · intro c r hf hcc hdf
    have hcid := findClaim_some_id hf
    rw [runFraudDetection_ok hf hcc hdf]
    refine ⟨?_, ?_⟩
    · show ([Event.screenerCall, Event.storeWrite].count Event.storeWrite) = 1
      decide
    · have hf2 : findClaim (saveClaim s (ClaimService.fraudSuccessUpdate env c r)) id
          = some (ClaimService.fraudSuccessUpdate env c r) :=
        findClaim_saveClaim hcid
      exact runFraudDetection_done hf2 rfl

/-- Witness for C7: a first screening of the fresh claim writes once and a
repeat invocation is a pure no-op. -/
theorem C7_screening_idempotent_witness :
    (ClaimService.runFraudDetection envW storeW0 1).events.count .storeWrite = 1 ∧
    ClaimService.runFraudDetection envW
        (ClaimService.runFraudDetection envW storeW0 1).store 1
      = ⟨.ok (), (ClaimService.runFraudDetection envW storeW0 1).store, []⟩ :=
  (C7_screening_idempotent envW envW storeW0 1).2.2 claimW0
    { isFraudulent := false, confidenceScore := 10, reason := "low risk",
      metadata := none }
    (by decide) (by decide) (by decide)

/-- `env` with the three Notifier channel outcomes replaced (submission,
status-change and processing notifications). -/
def envWithNotifiers (env : Collaborators) (nS nC nP : Except Err Unit) :
    Collaborators :=
  { env with sendSubmitted := nS, sendStatusChanged := nC, sendProcessed := nP }

theorem update_notifier_indep (env : Collaborators) (nS nC nP : Except Err Unit)
    (s : List Claim) (id : Nat) (udto : UpdateClaimDto) (adm : Bool) :
    (ClaimService.update (envWithNotifiers env nS nC nP) s id udto adm).result
      = (ClaimService.update env s id udto adm).result ∧
    (ClaimService.update (envWithNotifiers env nS nC nP) s id udto adm).store
      = (ClaimService.update env s id udto adm).store := by
  cases hf : findClaim s id with
  | none =>
      unfold ClaimService.update
      rw [hf]
      exact ⟨rfl, rfl⟩
  | some c =>
      unfold ClaimService.update
      rw [hf]
      cases adm with
      | true => exact ⟨rfl, rfl⟩
      | false => exact ⟨rfl, rfl⟩

theorem processClaim_notifier_indep (env : Collaborators)
    (nS nC nP : Except Err Unit) (s : List Claim) (id : Nat) :
    (ClaimService.processClaim (envWithNotifiers env nS nC nP) s id).result
      = (ClaimService.processClaim env s id).result ∧
    (ClaimService.processClaim (envWithNotifiers env nS nC nP) s id).store
      = (ClaimService.processClaim env s id).store := by
  cases hf : findClaim s id with
  | none =>
      rw [@processClaim_notFound_none (envWithNotifiers env nS nC nP) s id hf,
          @processClaim_notFound_none env s id hf]
      exact ⟨rfl, rfl⟩
  | some c =>
      by_cases hp : c.status = .pending
      · cases hcc : c.fraudCheckCompleted with
        | true =>
            cases hif : c.isFraudulent with
            | true =>
                rw [@processClaim_done_fraudulent
                      (envWithNotifiers env nS nC nP) s id c hf hp hcc hif,
                    @processClaim_done_fraudulent env s id c hf hp hcc hif]
                exact ⟨rfl, rfl⟩
            | false =>
                cases hv : env.verifyClaim c.id c.description with
                | error e =>
                    rw [@processClaim_done_oracleErr
                          (envWithNotifiers env nS nC nP) s id c e hf hp hcc hif hv,
                        @processClaim_done_oracleErr env s id c e hf hp hcc hif hv]
                    exact ⟨rfl, rfl⟩
                | ok v =>
                    rw [@processClaim_done_oracleOk
                          (envWithNotifiers env nS nC nP) s id c v hf hp hcc hif hv,
                        @processClaim_done_oracleOk env s id c v hf hp hcc hif hv]
                    exact ⟨rfl, rfl⟩
        | false =>
            cases hdf : env.detectFraud c with
            | error e =>
                rw [@processClaim_screenErr
                      (envWithNotifiers env nS nC nP) s id c e hf hp hcc hdf,
                    @processClaim_screenErr env s id c e hf hp hcc hdf]
                exact ⟨rfl, rfl⟩
            | ok r =>
                cases hfr : r.isFraudulent with
                | true =>
                    rw [@processClaim_fraudFound
                          (envWithNotifiers env nS nC nP) s id c r hf hp hcc hdf hfr,
                        @processClaim_fraudFound env s id c r hf hp hcc hdf hfr]
                    exact ⟨rfl, rfl⟩
                | false =>
                    cases hv : env.verifyClaim c.id c.description with
                    | error e =>
                        rw [@processClaim_screenClean_oracleErr
                              (envWithNotifiers env nS nC nP) s id c r e hf hp hcc hdf hfr hv,
                            @processClaim_screenClean_oracleErr
                              env s id c r e hf hp hcc hdf hfr hv]
                        exact ⟨rfl, rfl⟩
                    | ok v =>
                        rw [@processClaim_screenClean_oracleOk
                              (envWithNotifiers env nS nC nP) s id c r v hf hp hcc hdf hfr hv,
                            @processClaim_screenClean_oracleOk
                              env s id c r v hf hp hcc hdf hfr hv]
                        exact ⟨rfl, rfl⟩
      · rw [@processClaim_notFound_notPending
              (envWithNotifiers env nS nC nP) s id c hf hp,
            @processClaim_notFound_notPending env s id c hf hp]
        exact ⟨rfl, rfl⟩

/-- C8 counterexample: `processClaim` does not return the updated claim to
its caller — it returns no value.  Under a failing notifier two runs
whose persisted updated claims differ ("approved" vs "rejected" oracle)
produce the identical return value `.ok ()`, so the return value cannot
carry the updated claim. -/
theorem C8_counterexample :
    (ClaimService.processClaim envNotifyFailW storeW0 1).result = .ok () ∧
    (ClaimService.processClaim envNotifyFailW storeW0 1).result
      = (ClaimService.processClaim envNotifyFailRejW storeW0 1).result ∧
    findClaim (ClaimService.processClaim envNotifyFailW storeW0 1).store 1
      ≠ findClaim (ClaimService.processClaim envNotifyFailRejW storeW0 1).store 1 := by
  decide

/-- C8 (amended): every notifying operation (claim creation,
administrative update, `processClaim`) catches a Notifier failure at the
call site and never re-raises it — the operation produces the same thrown
error or return value and the same persisted store as under a succeeding
notifier, and creation in particular still succeeds; `processClaim`,
however, returns no value (`void`), so on success it merely completes
successfully rather than returning the updated claim. -/
theorem C8_notification_isolated (env : Collaborators)
    (nS nC nP : Except Err Unit) (s : List Claim) (dto : CreateClaimDto)
    (userId : String) (id : Nat) (udto : UpdateClaimDto) (adm : Bool) :
    ((ClaimService.create (envWithNotifiers env nS nC nP) s dto userId).result
        = (ClaimService.create env s dto userId).result ∧
      (ClaimService.create (envWithNotifiers env nS nC nP) s dto userId).store
        = (ClaimService.create env s dto userId).store ∧
      exceptOk (ClaimService.create (envWithNotifiers env nS nC nP) s dto userId).result
        = true) ∧
    ((ClaimService.update (envWithNotifiers env nS nC nP) s id udto adm).result
        = (ClaimService.update env s id udto adm).result ∧
      (ClaimService.update (envWithNotifiers env nS nC nP) s id udto adm).store
        = (ClaimService.update env s id udto adm).store) ∧
    ((ClaimService.processClaim (envWithNotifiers env nS nC nP) s id).result
        = (ClaimService.processClaim env s id).result ∧
      (ClaimService.processClaim (envWithNotifiers env nS nC nP) s id).store
        = (ClaimService.processClaim env s id).store) :=
  ⟨⟨rfl, rfl, rfl⟩,
    update_notifier_indep env nS nC nP s id udto adm,
    processClaim_notifier_indep env nS nC nP s id⟩
